import Mathlib

/-!
# Verification of the VMT_sabujak model architecture (`DEAR_ko/model.py`)

Shallow embedding of the bidirectional video-conditioned translation model in
`src/DEAR_ko/model.py`, together with proofs settling the frozen claims about it.

Modelling conventions:

* Floating-point tensors are modelled exactly, over `ℝ`.  A tensor of shape
  `(b, t, c)` is a function `Fin b → Fin t → Fin c → ℝ` (`T3 b t c`), a
  matrix is `Mat m n`.
* Learned sub-modules whose internals a claim does not inspect (LayerNorm,
  Dropout, the attention and feed-forward sub-modules held by an encoder
  layer) are modelled as opaque function fields of the owning structure, in
  the same place the Python module stores them as attributes; the claims
  quantify over every state these sub-modules may be in.  Operations written
  inline in the Python method bodies (`+`, `mean(1).unsqueeze(1).expand_as`,
  `F.log_softmax`, `masked_fill`, `softmax`) are modelled concretely.
* Shape-dependent behaviour (the end-to-end forward scenario, broadcasting,
  the positional-encoding fallback) is modelled by an executable shape
  semantics over `Shape := List ℕ`, translated operation by operation from
  the source.
* Python failures (`assert`, `ZeroDivisionError`, unbound locals, shape
  errors) are modelled with `Option`/`Except`.
-/

open scoped BigOperators

/-! ## Real-valued tensors -/

/-- A `(b, t, c)` float tensor: batch, time, channel. -/
def T3 (b t c : ℕ) : Type := Fin b → Fin t → Fin c → ℝ

/-- A plain `(m, n)` float matrix. -/
def Mat (m n : ℕ) : Type := Fin m → Fin n → ℝ

noncomputable instance (b t c : ℕ) : Add (T3 b t c) := ⟨fun x y i j k => x i j k + y i j k⟩

/-- `x.mean(1).unsqueeze(1).expand_as(x)`: mean over the time axis, broadcast
back over every time position (`SublayerConnection.expand_forward`). -/
noncomputable def meanExpand {b t c : ℕ} (x : T3 b t c) : T3 b t c :=
  fun i _ k => (∑ j, x i j k) / (t : ℝ)

/-- `F.log_softmax(x, dim=-1)` on a 3-D tensor: normalise over the last
(channel) axis. -/
noncomputable def logSoftmaxLastDim {b t c : ℕ} (x : T3 b t c) : T3 b t c :=
  fun i j k => x i j k - Real.log (∑ k', Real.exp (x i j k'))

/-- `F.log_softmax(x, dim=0)` on a 3-D tensor: normalise over the batch axis. -/
noncomputable def logSoftmaxDim0 {b t c : ℕ} (x : T3 b t c) : T3 b t c :=
  fun i j k => x i j k - Real.log (∑ i', Real.exp (x i' j k))

/-- `F.log_softmax(x)` with no `dim` argument, on a 3-D tensor.  PyTorch's
`torch.nn.functional._get_softmax_dim` picks the implicit dimension: `0` when
the input has 0, 1 or 3 dimensions, `1` otherwise.  The classifier output in
`EncoderLayer.forward` is 3-D, so the implicit dimension is `0`: the batch
axis, not the class axis. -/
noncomputable def logSoftmaxImplicitDim {b t c : ℕ} (x : T3 b t c) : T3 b t c :=
  logSoftmaxDim0 x

/-! ## Scaled dot-product attention (`attention`, model.py lines 187-197)

The Python function is rank-generic; every call site applies it to stacks of
matrices, one `(time_q, d_k)`-by-`(time_k, d_k)` problem per (batch, head)
pair.  We model the per-matrix computation; `MultiHeadedAttention.forward`
below maps it over batch and head indices.  The mask is an integer tensor as
in the source (`masked_fill(mask == 0, -1e9)`), and the dropout argument is an
arbitrary transformation of the attention matrix (covering `nn.Dropout` in any
of its random states, and `None`). -/

/-- `scores = torch.matmul(query, key.transpose(-2, -1)) / math.sqrt(d_k)`. -/
noncomputable def attnScores {m n : ℕ} (d : ℕ) (q : Mat m d) (k : Mat n d) : Mat m n :=
  fun i j => (∑ l, q i l * k j l) / Real.sqrt d

/-- `scores.masked_fill(mask == 0, -1e9)` (applied only when a mask is given). -/
noncomputable def maskFillScores {m n : ℕ} (s : Mat m n)
    (mask : Option (Fin m → Fin n → ℕ)) : Mat m n :=
  match mask with
  | none => s
  | some mk => fun i j => if mk i j = 0 then -1e9 else s i j

/-- `F.softmax(scores, dim=-1)`: row-wise softmax over the key axis. -/
noncomputable def softmaxRows {m n : ℕ} (s : Mat m n) : Mat m n :=
  fun i j => Real.exp (s i j) / ∑ j', Real.exp (s i j')

/-- `attention(query, key, value, mask, dropout)`: returns
`(torch.matmul(p_attn, value), p_attn)`. -/
noncomputable def attention {m n : ℕ} (d dv : ℕ) (q : Mat m d) (k : Mat n d) (v : Mat n dv)
    (mask : Option (Fin m → Fin n → ℕ)) (dropout : Option (Mat m n → Mat m n)) :
    Mat m dv × Mat m n :=
  let scores := attnScores d q k
  let scores := maskFillScores scores mask
  let p_attn := softmaxRows scores
  let p_attn := match dropout with
    | none => p_attn
    | some f => f p_attn
  (fun i c => ∑ j, p_attn i j * v j c, p_attn)

/-! ## Claim C6: masked attention -/

/-- C6.  For an attention call with a mask (and, as in evaluation mode, no
dropout): masked scores are exactly `-1e9`; the returned attention
distribution is a probability distribution over the key axis whose weight at
any masked key position `j` is at most `exp (-1e9 - s j')` for every key
position `j'` (so it is vanishingly small as soon as any score is not itself
astronomically negative); and the first output is the `p_attn`-weighted sum of
the value vectors. -/
theorem c6_masked_attention_prob_bound {m n : ℕ} (d dv : ℕ)
    (q : Mat m d) (k : Mat n d) (v : Mat n dv) (mask : Fin m → Fin n → ℕ)
    (i : Fin m) (j : Fin n) (hmask : mask i j = 0) :
    maskFillScores (attnScores d q k) (some mask) i j = -1e9 ∧
    (∑ j', (attention d dv q k v (some mask) none).2 i j') = 1 ∧
    (∀ j', (attention d dv q k v (some mask) none).2 i j ≤
      Real.exp (-1e9 - maskFillScores (attnScores d q k) (some mask) i j')) ∧
    (∀ i' c, (attention d dv q k v (some mask) none).1 i' c =
      ∑ j', (attention d dv q k v (some mask) none).2 i' j' * v j' c) := by
  have hmasked : maskFillScores (attnScores d q k) (some mask) i j = -1e9 := by
    simp [maskFillScores, hmask]
  set s := maskFillScores (attnScores d q k) (some mask) with hs
  have hp2 : (attention d dv q k v (some mask) none).2 = softmaxRows s := rfl
  have hsumpos : 0 < ∑ j', Real.exp (s i j') := by
    have : (Finset.univ : Finset (Fin n)).Nonempty := ⟨j, Finset.mem_univ j⟩
    exact Finset.sum_pos (fun x _ => Real.exp_pos _) this
  refine ⟨hmasked, ?_, ?_, ?_⟩
  · rw [hp2]
    simp only [softmaxRows]
    rw [← Finset.sum_div]
    exact div_self (ne_of_gt hsumpos)
  · intro j'
    rw [hp2]
    simp only [softmaxRows]
    have hterm : Real.exp (s i j') ≤ ∑ j'', Real.exp (s i j'') :=
      Finset.single_le_sum (fun x _ => le_of_lt (Real.exp_pos _)) (Finset.mem_univ j')
    have h1 : Real.exp (s i j) / ∑ j'', Real.exp (s i j'') ≤
        Real.exp (s i j) / Real.exp (s i j') := by
      apply div_le_div_of_nonneg_left (le_of_lt (Real.exp_pos _)) (Real.exp_pos _) hterm
    calc Real.exp (s i j) / ∑ j'', Real.exp (s i j'') ≤
        Real.exp (s i j) / Real.exp (s i j') := h1
      _ = Real.exp (s i j - s i j') := (Real.exp_sub _ _).symm
      _ = Real.exp (-1e9 - s i j') := by rw [show s i j = -1e9 from hmasked]
  · intro i' c
    rfl

/-- The all-zero matrix, used for concrete witnesses. -/
noncomputable def zMat (m n : ℕ) : Mat m n := fun _ _ => 0

/-- A concrete 1-by-2 mask that masks out key position 0 only. -/
def maskFirstOf2 : Fin 1 → Fin 2 → ℕ := fun _ j => if j = 0 then 0 else 1

/-- Witness for C6 at a concrete input: two key positions, the first masked. -/
theorem c6_masked_attention_prob_bound_witness :
    maskFirstOf2 0 0 = 0 ∧
    (maskFillScores (attnScores 1 (zMat 1 1) (zMat 2 1)) (some maskFirstOf2) 0 0 = -1e9 ∧
    (∑ j', (attention 1 1 (zMat 1 1) (zMat 2 1) (zMat 2 1)
      (some maskFirstOf2) none).2 0 j') = 1 ∧
    (∀ j', (attention 1 1 (zMat 1 1) (zMat 2 1) (zMat 2 1)
      (some maskFirstOf2) none).2 0 0 ≤
      Real.exp (-1e9 - maskFillScores (attnScores 1 (zMat 1 1) (zMat 2 1))
        (some maskFirstOf2) 0 j')) ∧
    (∀ i' c, (attention 1 1 (zMat 1 1) (zMat 2 1) (zMat 2 1)
      (some maskFirstOf2) none).1 i' c =
      ∑ j', (attention 1 1 (zMat 1 1) (zMat 2 1) (zMat 2 1)
        (some maskFirstOf2) none).2 i' j' * zMat 2 1 j' c)) :=
  ⟨by decide, c6_masked_attention_prob_bound 1 1 (zMat 1 1) (zMat 2 1)
    (zMat 2 1) maskFirstOf2 0 0 (by decide)⟩

/-! ## SublayerConnection (model.py lines 103-123)

The Python module stores a `LayerNorm` and a `Dropout`; both are learned or
stochastic sub-modules whose internals the claims do not inspect, so they are
modelled as opaque function fields ranging over every state those modules can
be in.  The three methods' own tensor arithmetic (`+`,
`mean(1).unsqueeze(1).expand_as`) is concrete. -/

structure SublayerConnection (b t c : ℕ) where
  norm : T3 b t c → T3 b t c
  dropout : T3 b t c → T3 b t c

/-- `forward(x, sublayer) = x + dropout(sublayer(norm(x)))`: the plain
residual variant (this is what `self.sublayer[i](x, f)` invokes). -/
noncomputable def SublayerConnection.forward {b t c : ℕ} (sc : SublayerConnection b t c)
    (x : T3 b t c) (sublayer : T3 b t c → T3 b t c) : T3 b t c :=
  x + sc.dropout (sublayer (sc.norm x))

/-- `expand_forward`: pooling residual variant — mean over time, broadcast
back, residual add. -/
noncomputable def SublayerConnection.expand_forward {b t c : ℕ} (sc : SublayerConnection b t c)
    (x : T3 b t c) (sublayer : T3 b t c → T3 b t c) : T3 b t c :=
  let out := sc.dropout (sublayer (sc.norm x))
  x + meanExpand out

/-- `nosum_forward`: pass-through variant — no residual add. -/
noncomputable def SublayerConnection.nosum_forward {b t c : ℕ} (sc : SublayerConnection b t c)
    (x : T3 b t c) (sublayer : T3 b t c → T3 b t c) : T3 b t c :=
  sc.dropout (sublayer (sc.norm x))

/-! ## EncoderLayer (model.py lines 126-154) -/

/-- The translation direction flag (`type` string in the source). -/
inductive Dir where
  | en2ko
  | ko2en
deriving DecidableEq

/-- The per-layer classifier: either a plain Python dict holding one
`nn.Linear(d_model, 401, bias=False)` per language, or a single shared
linear module (`isinstance(self.classifier, dict)` distinguishes the two). -/
inductive Classifier (b tv c nc : ℕ) where
  | dict (en ko : T3 b tv c → T3 b tv nc)
  | single (f : T3 b tv c → T3 b tv nc)

/-- Encoder layer over a text sequence of shape `(b, ts, c)` and a video
sequence of shape `(b, tv, c)`, with `nc`-way classifier output.  The
attention and feed-forward sub-modules are opaque function fields, exactly
the attributes stored by `EncoderLayer.__init__`; `clones(SublayerConnection
(size, dropout), 5)` is modelled as five independent `SublayerConnection`
fields (three at text shape, two at video shape, matching their use sites). -/
structure EncoderLayer (b ts tv c nc : ℕ) where
  self_attn : T3 b ts c → T3 b ts c → T3 b ts c → (Fin b → Fin ts → ℕ) → T3 b ts c
  vid_attn : T3 b ts c → T3 b tv c → T3 b tv c → (Fin b → Fin tv → ℕ) → T3 b ts c
  seq_attn : T3 b tv c → T3 b ts c → T3 b ts c → (Fin b → Fin ts → ℕ) → T3 b tv c
  ff1 : T3 b ts c → T3 b ts c
  ff2 : T3 b tv c → T3 b tv c
  sublayer0 : SublayerConnection b ts c
  sublayer1 : SublayerConnection b ts c
  sublayer2 : SublayerConnection b tv c
  sublayer3 : SublayerConnection b tv c
  sublayer4 : SublayerConnection b ts c
  classifier : Classifier b tv c nc

/-- `EncoderLayer.forward` (model.py lines 139-154), translated line by line.
Note which variables flow where: the final text output is
`self.sublayer[4](vid_seq, self.ff1)` — applied to `vid_seq`, the step-2
text-over-video fusion — while `seq_vid` (the video-over-text fusion) feeds
only the classifier.  The shared-classifier branch calls `F.log_softmax`
without a `dim` argument. -/
noncomputable def EncoderLayer.forward {b ts tv c nc : ℕ} (l : EncoderLayer b ts tv c nc)
    (seq : T3 b ts c) (seq_mask : Fin b → Fin ts → ℕ)
    (video : T3 b tv c) (video_mask : Fin b → Fin tv → ℕ) (ty : Dir) :
    T3 b ts c × T3 b tv nc :=
  let seq := l.sublayer0.forward seq (fun s => l.self_attn s s s seq_mask)
  let vid_seq := l.sublayer1.forward seq (fun s => l.vid_attn s video video video_mask)
  let seq_vid := l.sublayer2.forward video (fun v => l.seq_attn v seq seq seq_mask)
  let seq_vid := l.sublayer3.forward seq_vid l.ff2
  let act_pred :=
    match l.classifier with
    | Classifier.dict en ko =>
        match ty with
        | Dir.en2ko => logSoftmaxLastDim (en seq_vid)
        | Dir.ko2en => logSoftmaxLastDim (ko seq_vid)
    | Classifier.single f => logSoftmaxImplicitDim (f seq_vid)
  (l.sublayer4.forward vid_seq l.ff1, act_pred)

/-- Step 1 of the layer: self-attention with residual+norm (the first line of
`EncoderLayer.forward`). -/
noncomputable def EncoderLayer.step1 {b ts tv c nc : ℕ} (l : EncoderLayer b ts tv c nc)
    (seq : T3 b ts c) (seq_mask : Fin b → Fin ts → ℕ) : T3 b ts c :=
  l.sublayer0.forward seq (fun s => l.self_attn s s s seq_mask)

/-- Step 2 of the layer: the text-over-video fusion value `vid_seq`. -/
noncomputable def EncoderLayer.vidSeq {b ts tv c nc : ℕ} (l : EncoderLayer b ts tv c nc)
    (seq : T3 b ts c) (seq_mask : Fin b → Fin ts → ℕ)
    (video : T3 b tv c) (video_mask : Fin b → Fin tv → ℕ) : T3 b ts c :=
  l.sublayer1.forward (l.step1 seq seq_mask) (fun s => l.vid_attn s video video video_mask)

/-- Steps 3-4 of the layer: the video-over-text fusion `seq_vid` after the
second feed-forward. -/
noncomputable def EncoderLayer.seqVid {b ts tv c nc : ℕ} (l : EncoderLayer b ts tv c nc)
    (seq : T3 b ts c) (seq_mask : Fin b → Fin ts → ℕ)
    (video : T3 b tv c) (video_mask : Fin b → Fin tv → ℕ) : T3 b tv c :=
  l.sublayer3.forward
    (l.sublayer2.forward video
      (fun v => l.seq_attn v (l.step1 seq seq_mask) (l.step1 seq seq_mask) seq_mask))
    l.ff2

/-- Pointwise unfolding of tensor addition. -/
theorem T3.add_apply {b t c : ℕ} (x y : T3 b t c) (i : Fin b) (j : Fin t) (k : Fin c) :
    (x + y) i j k = x i j k + y i j k := rfl

/-- The classifier branch of `EncoderLayer.forward` as the source computes it:
the dict selects `'en'` when `type == 'en2ko'` else `'ko'`, each with
`F.log_softmax(..., dim=-1)`; the shared module gets `F.log_softmax` with no
`dim` argument (implicit dim 0 on the 3-D input). -/
noncomputable def EncoderLayer.actPred {b ts tv c nc : ℕ} (l : EncoderLayer b ts tv c nc)
    (seq : T3 b ts c) (seq_mask : Fin b → Fin ts → ℕ)
    (video : T3 b tv c) (video_mask : Fin b → Fin tv → ℕ) (ty : Dir) : T3 b tv nc :=
  match l.classifier with
  | Classifier.dict en ko =>
      match ty with
      | Dir.en2ko => logSoftmaxLastDim (en (l.seqVid seq seq_mask video video_mask))
      | Dir.ko2en => logSoftmaxLastDim (ko (l.seqVid seq seq_mask video video_mask))
  | Classifier.single f => logSoftmaxImplicitDim (f (l.seqVid seq seq_mask video video_mask))

/-- Modelled from the claim (C1): the layer's returned text representation as
the claim describes it — step 1's output passed directly through the primary
feed-forward with residual+norm, the step-2 fusion not carried forward. -/
noncomputable def EncoderLayer.textOutClaimC1 {b ts tv c nc : ℕ} (l : EncoderLayer b ts tv c nc)
    (seq : T3 b ts c) (seq_mask : Fin b → Fin ts → ℕ) : T3 b ts c :=
  l.sublayer4.forward (l.step1 seq seq_mask) l.ff1

/-- Modelled from the claim (C2): `EncoderLayer.forward` with the wrapping the
claim asserts — the text-over-video attention wrapped by the pooling residual
variant `expand_forward`, the video-over-text attention wrapped by the
pass-through variant `nosum_forward`. -/
noncomputable def EncoderLayer.forwardClaimC2 {b ts tv c nc : ℕ} (l : EncoderLayer b ts tv c nc)
    (seq : T3 b ts c) (seq_mask : Fin b → Fin ts → ℕ)
    (video : T3 b tv c) (video_mask : Fin b → Fin tv → ℕ) (ty : Dir) :
    T3 b ts c × T3 b tv nc :=
  let seq := l.sublayer0.forward seq (fun s => l.self_attn s s s seq_mask)
  let vid_seq := l.sublayer1.expand_forward seq (fun s => l.vid_attn s video video video_mask)
  let seq_vid := l.sublayer2.nosum_forward video (fun v => l.seq_attn v seq seq seq_mask)
  let seq_vid := l.sublayer3.forward seq_vid l.ff2
  let act_pred :=
    match l.classifier with
    | Classifier.dict en ko =>
        match ty with
        | Dir.en2ko => logSoftmaxLastDim (en seq_vid)
        | Dir.ko2en => logSoftmaxLastDim (ko seq_vid)
    | Classifier.single f => logSoftmaxImplicitDim (f seq_vid)
  (l.sublayer4.forward vid_seq l.ff1, act_pred)

/-! ### Concrete instances used in counterexamples and witnesses -/

/-- The all-zero `(b, t, c)` tensor. -/
noncomputable def zT3 (b t c : ℕ) : T3 b t c := fun _ _ _ => 0

/-- The constant-one `(b, t, c)` tensor. -/
noncomputable def oneT3 (b t c : ℕ) : T3 b t c := fun _ _ _ => 1

/-- An all-ones (nothing masked) mask. -/
def onesMask (b t : ℕ) : Fin b → Fin t → ℕ := fun _ _ => 1

/-- A `SublayerConnection` whose norm and dropout act as the identity (e.g.
dropout in evaluation mode). -/
noncomputable def idSC (b t c : ℕ) : SublayerConnection b t c :=
  ⟨fun x => x, fun x => x⟩

/-- A `(1, 2, 1)` tensor that varies along the time axis. -/
noncomputable def tVarT3 : T3 1 2 1 := fun _ t _ => if t = 0 then 1 else 0

/-- Concrete encoder layer at scalar shapes whose text-over-video attention
contributes a nonzero value. -/
noncomputable def layerC1 : EncoderLayer 1 1 1 1 1 where
  self_attn := fun _ _ _ _ => zT3 1 1 1
  vid_attn := fun _ _ _ _ => oneT3 1 1 1
  seq_attn := fun _ _ _ _ => zT3 1 1 1
  ff1 := fun x => x
  ff2 := fun x => x
  sublayer0 := idSC 1 1 1
  sublayer1 := idSC 1 1 1
  sublayer2 := idSC 1 1 1
  sublayer3 := idSC 1 1 1
  sublayer4 := idSC 1 1 1
  classifier := Classifier.single (fun x => x)

/-- Concrete encoder layer with two text time steps whose text-over-video
attention output varies over time. -/
noncomputable def layerC2 : EncoderLayer 1 2 1 1 1 where
  self_attn := fun _ _ _ _ => zT3 1 2 1
  vid_attn := fun _ _ _ _ => tVarT3
  seq_attn := fun _ _ _ _ => zT3 1 1 1
  ff1 := fun x => x
  ff2 := fun x => x
  sublayer0 := idSC 1 2 1
  sublayer1 := idSC 1 2 1
  sublayer2 := idSC 1 1 1
  sublayer3 := idSC 1 1 1
  sublayer4 := idSC 1 2 1
  classifier := Classifier.single (fun x => x)

/-! ## Claim C1: which branch reaches the final feed-forward -/

/-- Replace every field of an encoder layer that lies on the
video-over-text/classifier path (`seq_attn`, `ff2`, the classifier and
sublayers 2-3), leaving the text path untouched. -/
noncomputable def EncoderLayer.replaceClassifierPath {b ts tv c nc : ℕ}
    (l : EncoderLayer b ts tv c nc)
    (sa' : T3 b tv c → T3 b ts c → T3 b ts c → (Fin b → Fin ts → ℕ) → T3 b tv c)
    (ff2' : T3 b tv c → T3 b tv c) (cf' : Classifier b tv c nc)
    (s2' s3' : SublayerConnection b tv c) : EncoderLayer b ts tv c nc :=
  { l with seq_attn := sa', ff2 := ff2', classifier := cf', sublayer2 := s2', sublayer3 := s3' }

/-- C1 (amended).  The layer's returned text representation is the *step-2
text-over-video fusion value* (`vid_seq`) passed through the primary
feed-forward with residual+norm, so the step-2 fusion IS carried into the
final feed-forward call; what is not carried forward into the text output is
the video-over-text fusion of steps 3-4 (`seq_vid`), which feeds only the
classifier — the text output is invariant under any change to `seq_attn`,
`ff2`, the classifier and sublayers 2-3. -/
theorem c1_text_output_carries_step2_fusion {b ts tv c nc : ℕ}
    (l : EncoderLayer b ts tv c nc)
    (seq : T3 b ts c) (seq_mask : Fin b → Fin ts → ℕ)
    (video : T3 b tv c) (video_mask : Fin b → Fin tv → ℕ) (ty : Dir)
    (sa' : T3 b tv c → T3 b ts c → T3 b ts c → (Fin b → Fin ts → ℕ) → T3 b tv c)
    (ff2' : T3 b tv c → T3 b tv c) (cf' : Classifier b tv c nc)
    (s2' s3' : SublayerConnection b tv c) :
    (l.forward seq seq_mask video video_mask ty).1 =
      l.sublayer4.forward (l.vidSeq seq seq_mask video video_mask) l.ff1 ∧
    ((l.replaceClassifierPath sa' ff2' cf' s2' s3').forward
        seq seq_mask video video_mask ty).1 =
      (l.forward seq seq_mask video video_mask ty).1 :=
  ⟨rfl, rfl⟩

/-- C1 counterexample: a concrete layer call where the returned text
representation differs from the claim's description of it (step-1 output
through the final feed-forward). -/
theorem c1_claimed_wiring_refuted :
    (layerC1.forward (zT3 1 1 1) (onesMask 1 1) (zT3 1 1 1) (onesMask 1 1) Dir.en2ko).1 ≠
      layerC1.textOutClaimC1 (zT3 1 1 1) (onesMask 1 1) := by
  intro h
  have h0 := congrFun (congrFun (congrFun h 0) 0) 0
  simp only [EncoderLayer.forward, EncoderLayer.textOutClaimC1, EncoderLayer.step1,
    SublayerConnection.forward, layerC1, idSC, zT3, oneT3, T3.add_apply] at h0
  norm_num at h0

/-! ## Claim C2: which sublayer variants wrap the two cross-attentions -/

/-- C2 (amended).  In every encoder-layer call both cross-attentions are
wrapped by the plain residual variant `SublayerConnection.forward`
(`x + dropout(sublayer(norm x))`): the whole layer output equals the plain
wiring `(sublayer4.forward (vidSeq ..) ff1, actPred ..)`, in which `vidSeq`
uses `sublayer1.forward` and `seqVid` uses `sublayer2.forward` and
`sublayer3.forward`.  The pooling variant `expand_forward` and the
pass-through variant `nosum_forward` are defined on `SublayerConnection` but
never invoked. -/
theorem c2_cross_attentions_use_plain_residual {b ts tv c nc : ℕ}
    (l : EncoderLayer b ts tv c nc)
    (seq : T3 b ts c) (seq_mask : Fin b → Fin ts → ℕ)
    (video : T3 b tv c) (video_mask : Fin b → Fin tv → ℕ) (ty : Dir) :
    l.forward seq seq_mask video video_mask ty =
      (l.sublayer4.forward (l.vidSeq seq seq_mask video video_mask) l.ff1,
       l.actPred seq seq_mask video video_mask ty) := rfl

/-- C2 counterexample: a concrete layer call where the actual output differs
from the output the claimed wrapping (pooling residual for text-over-video,
pass-through for video-over-text) would produce. -/
theorem c2_claimed_variants_refuted :
    (layerC2.forward (zT3 1 2 1) (onesMask 1 2) (zT3 1 1 1) (onesMask 1 1) Dir.en2ko).1 ≠
      (layerC2.forwardClaimC2 (zT3 1 2 1) (onesMask 1 2) (zT3 1 1 1) (onesMask 1 1)
        Dir.en2ko).1 := by
  intro h
  have h0 := congrFun (congrFun (congrFun h 0) 0) 0
  simp only [EncoderLayer.forward, EncoderLayer.forwardClaimC2,
    SublayerConnection.forward, SublayerConnection.expand_forward, meanExpand,
    layerC2, idSC, zT3, tVarT3, T3.add_apply, Fin.sum_univ_two] at h0
  norm_num at h0

/-! ## Claim C4: classifier selection and normalisation axis -/

/-- Batch-varying classifier output used to separate the two log-softmax
axes: `(2, 1, 2)` tensor, value 0 on batch 0 and 1 on batch 1. -/
noncomputable def xC4 : T3 2 1 2 := fun i _ _ => if i = 0 then 0 else 1

/-- A distinct classifier output for the ko branch. -/
noncomputable def yC4 : T3 2 1 2 := fun _ _ _ => 0

/-- Concrete encoder layer (batch 2) with a shared classifier whose output is
`xC4`. -/
noncomputable def layerC4 : EncoderLayer 2 1 1 1 2 where
  self_attn := fun _ _ _ _ => zT3 2 1 1
  vid_attn := fun _ _ _ _ => zT3 2 1 1
  seq_attn := fun _ _ _ _ => zT3 2 1 1
  ff1 := fun x => x
  ff2 := fun x => x
  sublayer0 := idSC 2 1 1
  sublayer1 := idSC 2 1 1
  sublayer2 := idSC 2 1 1
  sublayer3 := idSC 2 1 1
  sublayer4 := idSC 2 1 1
  classifier := Classifier.single (fun _ => xC4)

/-- The same layer with per-language classifiers (`'en'` returns `xC4`,
`'ko'` returns `yC4`). -/
noncomputable def layerC4dict : EncoderLayer 2 1 1 1 2 :=
  { layerC4 with classifier := Classifier.dict (fun _ => xC4) (fun _ => yC4) }

/-- C4, evaluated at the failing input (shared classifier, batch 2, one video
position, 2 classes for readability).  The per-language configuration selects
the `'en'` classifier for `en2ko` and the `'ko'` classifier for `ko2en`, each
normalised over the class axis as the claim says; but the shared-classifier
configuration normalises over dimension 0 — the *batch* axis — because
`F.log_softmax` is called without a `dim` argument on a 3-D tensor, and this
differs from normalisation over the class axis. -/
theorem c4_shared_classifier_normalises_batch_axis :
    (layerC4dict.forward (zT3 2 1 1) (onesMask 2 1) (zT3 2 1 1) (onesMask 2 1)
        Dir.en2ko).2 = logSoftmaxLastDim xC4 ∧
    (layerC4dict.forward (zT3 2 1 1) (onesMask 2 1) (zT3 2 1 1) (onesMask 2 1)
        Dir.ko2en).2 = logSoftmaxLastDim yC4 ∧
    (layerC4.forward (zT3 2 1 1) (onesMask 2 1) (zT3 2 1 1) (onesMask 2 1)
        Dir.en2ko).2 = logSoftmaxDim0 xC4 ∧
    (layerC4.forward (zT3 2 1 1) (onesMask 2 1) (zT3 2 1 1) (onesMask 2 1)
        Dir.en2ko).2 ≠ logSoftmaxLastDim xC4 := by
  refine ⟨rfl, rfl, rfl, ?_⟩
  intro h
  have h0 := congrFun (congrFun (congrFun h 0) 0) 0
  have hstep : (layerC4.forward (zT3 2 1 1) (onesMask 2 1) (zT3 2 1 1) (onesMask 2 1)
      Dir.en2ko).2 = logSoftmaxDim0 xC4 := rfl
  rw [hstep] at h0
  simp only [logSoftmaxDim0, logSoftmaxLastDim, xC4, Fin.sum_univ_two] at h0
  norm_num at h0
  have h2 : (2 : ℝ) < 1 + Real.exp 1 := by
    have he : (1 : ℝ) + 1 ≤ Real.exp 1 := by
      simpa using Real.add_one_le_exp (1 : ℝ)
    linarith
  have hmono : Real.log 2 < Real.log (1 + Real.exp 1) :=
    Real.log_lt_log (by norm_num) h2
  rw [h0] at hmono
  exact lt_irrefl _ hmono

/-! ## Encoder (model.py lines 73-85)

`Encoder.forward` loops `for layer in self.layers: x, act_pred = layer(...)`
and then returns `self.norm(x), act_pred`.  With an empty layer stack the
local `act_pred` is never assigned and the return raises `UnboundLocalError`;
we model the result as `Option`, `none` being that failure. -/

structure Encoder (b ts tv c nc : ℕ) where
  layers : List (EncoderLayer b ts tv c nc)
  norm : T3 b ts c → T3 b ts c

/-- `Encoder.forward`, with the loop as a fold carrying `(x, act_pred)` where
`act_pred` starts unassigned. -/
noncomputable def Encoder.forward {b ts tv c nc : ℕ} (e : Encoder b ts tv c nc)
    (x : T3 b ts c) (mask : Fin b → Fin ts → ℕ)
    (video : T3 b tv c) (video_mask : Fin b → Fin tv → ℕ) (ty : Dir) :
    Option (T3 b ts c × T3 b tv nc) :=
  let r := e.layers.foldl
    (fun (acc : T3 b ts c × Option (T3 b tv nc)) layer =>
      let out := layer.forward acc.1 mask video video_mask ty
      (out.1, some out.2))
    (x, (none : Option (T3 b tv nc)))
  match r.2 with
  | none => none
  | some a => some (e.norm r.1, a)

/-- Text state after running a list of encoder layers in order. -/
noncomputable def runLayersText {b ts tv c nc : ℕ} (ls : List (EncoderLayer b ts tv c nc))
    (x : T3 b ts c) (mask : Fin b → Fin ts → ℕ)
    (video : T3 b tv c) (video_mask : Fin b → Fin tv → ℕ) (ty : Dir) : T3 b ts c :=
  match ls with
  | [] => x
  | l :: rest =>
      runLayersText rest (l.forward x mask video video_mask ty).1 mask video video_mask ty

/-- The action prediction produced by the LAST layer of the nonempty stack
`l0 :: rest`, as each iteration overwrites the previous one. -/
noncomputable def lastActPred {b ts tv c nc : ℕ} (l0 : EncoderLayer b ts tv c nc)
    (rest : List (EncoderLayer b ts tv c nc)) (x : T3 b ts c) (mask : Fin b → Fin ts → ℕ)
    (video : T3 b tv c) (video_mask : Fin b → Fin tv → ℕ) (ty : Dir) : T3 b tv nc :=
  match rest with
  | [] => (l0.forward x mask video video_mask ty).2
  | l1 :: rest' =>
      lastActPred l1 rest' (l0.forward x mask video video_mask ty).1 mask video video_mask ty

/-- Fold characterisation: once some layer has run, the accumulator's
action-prediction slot stays assigned and tracks the most recent layer. -/
theorem encoderFold_some {b ts tv c nc : ℕ} (mask : Fin b → Fin ts → ℕ)
    (video : T3 b tv c) (video_mask : Fin b → Fin tv → ℕ) (ty : Dir) :
    ∀ (l0 : EncoderLayer b ts tv c nc) (rest : List (EncoderLayer b ts tv c nc))
      (x : T3 b ts c),
      (l0 :: rest).foldl
        (fun (acc : T3 b ts c × Option (T3 b tv nc)) layer =>
          let out := layer.forward acc.1 mask video video_mask ty
          (out.1, some out.2))
        (x, none) =
      (runLayersText (l0 :: rest) x mask video video_mask ty,
       some (lastActPred l0 rest x mask video video_mask ty)) := by
  have key : ∀ (rest : List (EncoderLayer b ts tv c nc)) (l0 : EncoderLayer b ts tv c nc)
      (x : T3 b ts c) (a : Option (T3 b tv nc)),
      (l0 :: rest).foldl
        (fun (acc : T3 b ts c × Option (T3 b tv nc)) layer =>
          let out := layer.forward acc.1 mask video video_mask ty
          (out.1, some out.2))
        (x, a) =
      (runLayersText (l0 :: rest) x mask video video_mask ty,
       some (lastActPred l0 rest x mask video video_mask ty)) := by
    intro rest
    induction rest with
    | nil => intro l0 x a; rfl
    | cons l1 rest' ih =>
        intro l0 x a
        simp only [List.foldl_cons] at ih ⊢
        exact ih l1 (l0.forward x mask video video_mask ty).1
          (some (l0.forward x mask video video_mask ty).2)
  intro l0 rest x
  exact key rest l0 x none

/-- C10.  `Encoder.forward` is total exactly on nonempty stacks: with layers
`l0 :: rest` it returns the closing norm of the last layer's text output
paired with exactly the last layer's action prediction, while with an empty
stack the `act_pred` local is never assigned and the call fails. -/
theorem c10_encoder_requires_nonempty_stack {b ts tv c nc : ℕ} (e : Encoder b ts tv c nc)
    (x : T3 b ts c) (mask : Fin b → Fin ts → ℕ)
    (video : T3 b tv c) (video_mask : Fin b → Fin tv → ℕ) (ty : Dir) :
    (e.layers = [] → e.forward x mask video video_mask ty = none) ∧
    (∀ l0 rest, e.layers = l0 :: rest →
      e.forward x mask video video_mask ty =
        some (e.norm (runLayersText (l0 :: rest) x mask video video_mask ty),
          lastActPred l0 rest x mask video video_mask ty)) := by
  constructor
  · intro hnil
    simp only [Encoder.forward, hnil, List.foldl_nil]
  · intro l0 rest hcons
    simp only [Encoder.forward, hcons]
    rw [encoderFold_some mask video video_mask ty l0 rest x]

/-- A trivial concrete encoder layer at scalar shapes (all attentions return
zero, feed-forwards and norms are identities). -/
noncomputable def layerId : EncoderLayer 1 1 1 1 1 where
  self_attn := fun _ _ _ _ => zT3 1 1 1
  vid_attn := fun _ _ _ _ => zT3 1 1 1
  seq_attn := fun _ _ _ _ => zT3 1 1 1
  ff1 := fun x => x
  ff2 := fun x => x
  sublayer0 := idSC 1 1 1
  sublayer1 := idSC 1 1 1
  sublayer2 := idSC 1 1 1
  sublayer3 := idSC 1 1 1
  sublayer4 := idSC 1 1 1
  classifier := Classifier.single (fun x => x)

/-- A one-layer concrete encoder. -/
noncomputable def encoderOne : Encoder 1 1 1 1 1 := ⟨[layerId], fun x => x⟩

/-- An empty concrete encoder (N = 0). -/
noncomputable def encoderNil : Encoder 1 1 1 1 1 := ⟨[], fun x => x⟩

/-- Witness for C10: the empty encoder fails, the one-layer encoder returns
the normed text output and that layer's action prediction. -/
theorem c10_encoder_requires_nonempty_stack_witness :
    encoderNil.forward (zT3 1 1 1) (onesMask 1 1) (zT3 1 1 1) (onesMask 1 1) Dir.en2ko
      = none ∧
    encoderOne.forward (zT3 1 1 1) (onesMask 1 1) (zT3 1 1 1) (onesMask 1 1) Dir.en2ko
      = some (encoderOne.norm
          (runLayersText [layerId] (zT3 1 1 1) (onesMask 1 1) (zT3 1 1 1) (onesMask 1 1)
            Dir.en2ko),
        lastActPred layerId [] (zT3 1 1 1) (onesMask 1 1) (zT3 1 1 1) (onesMask 1 1)
          Dir.en2ko) :=
  ⟨(c10_encoder_requires_nonempty_stack encoderNil (zT3 1 1 1) (onesMask 1 1) (zT3 1 1 1)
      (onesMask 1 1) Dir.en2ko).1 rfl,
   (c10_encoder_requires_nonempty_stack encoderOne (zT3 1 1 1) (onesMask 1 1) (zT3 1 1 1)
      (onesMask 1 1) Dir.en2ko).2 layerId [] rfl⟩

/-! ## MultiHeadedAttention construction (model.py lines 200-214): claim C7

`__init__` evaluates `d_model % h` — a `ZeroDivisionError` in Python when
`h = 0` — and asserts the remainder is zero before setting
`d_k = d_model // h`; `d_in` defaults to `-1`, meaning `d_model`. -/

/-- Failures `MultiHeadedAttention.__init__` can raise. -/
inductive PyError where
  | assertionError
  | zeroDivisionError
deriving DecidableEq

/-- The state `__init__` stores on success. -/
structure MHACfg where
  d_k : ℕ
  d_model : ℕ
  heads : ℕ
  d_in : ℕ
deriving DecidableEq

/-- `MultiHeadedAttention.__init__(h, d_model, d_in)`. -/
def MultiHeadedAttention.init (h d_model : ℕ) (d_in : ℤ) : Except PyError MHACfg :=
  if h = 0 then Except.error PyError.zeroDivisionError
  else if d_model % h ≠ 0 then Except.error PyError.assertionError
  else Except.ok ⟨d_model / h, d_model, h, if d_in < 0 then d_model else d_in.toNat⟩

/-- C7 (amended).  For a positive head count the construction fails exactly
when `h` does not divide `d_model`, and succeeds with `d_k = d_model / h`
otherwise; for `h = 0`, however, construction always fails (Python raises
`ZeroDivisionError` evaluating `d_model % h`), even when `d_model` is
divisible by `h = 0`. -/
theorem c7_head_divisibility_check (h d_model : ℕ) (d_in : ℤ) (hpos : 0 < h) :
    ((∃ cfg, MultiHeadedAttention.init h d_model d_in = Except.ok cfg) ↔ d_model % h = 0) ∧
    (d_model % h = 0 → MultiHeadedAttention.init h d_model d_in =
      Except.ok ⟨d_model / h, d_model, h, if d_in < 0 then d_model else d_in.toNat⟩) ∧
    (d_model % h ≠ 0 → MultiHeadedAttention.init h d_model d_in =
      Except.error PyError.assertionError) := by
  have hne : h ≠ 0 := Nat.pos_iff_ne_zero.mp hpos
  refine ⟨⟨?_, ?_⟩, ?_, ?_⟩
  · rintro ⟨cfg, hcfg⟩
    by_contra hmod
    simp [MultiHeadedAttention.init, hne, hmod] at hcfg
  · intro hmod
    refine ⟨⟨d_model / h, d_model, h, if d_in < 0 then d_model else d_in.toNat⟩, ?_⟩
    simp [MultiHeadedAttention.init, hne, hmod]
  · intro hmod
    simp [MultiHeadedAttention.init, hne, hmod]
  · intro hmod
    simp [MultiHeadedAttention.init, hne, hmod]

/-- Witness for C7 at the usual configuration `h = 8`, `d_model = 512`,
default `d_in = -1`. -/
theorem c7_head_divisibility_check_witness :
    (0 < 8) ∧
    (((∃ cfg, MultiHeadedAttention.init 8 512 (-1) = Except.ok cfg) ↔ 512 % 8 = 0) ∧
    (512 % 8 = 0 → MultiHeadedAttention.init 8 512 (-1) =
      Except.ok ⟨512 / 8, 512, 8, if (-1 : ℤ) < 0 then 512 else Int.toNat (-1)⟩) ∧
    (512 % 8 ≠ 0 → MultiHeadedAttention.init 8 512 (-1) =
      Except.error PyError.assertionError)) :=
  ⟨by decide, c7_head_divisibility_check 8 512 (-1) (by decide)⟩

/-- C7 counterexample: with `h = 0` and `d_model = 0`, `d_model` *is* evenly
divisible by `h` (`0 % 0 = 0`, and `∃ k, 0 = 0 * k`), yet construction fails
— so "fails if and only if `d_model` is not evenly divisible by `h`" is false
as stated. -/
theorem c7_zero_heads_counterexample :
    MultiHeadedAttention.init 0 0 (-1) = Except.error PyError.zeroDivisionError ∧
    (0 : ℕ) % 0 = 0 ∧ (0 : ℕ) ∣ 0 := by
  refine ⟨rfl, rfl, ⟨0, rfl⟩⟩

/-! ## MultiHeadedAttention forward (model.py lines 216-231): claim C8

The module stores four linears, a dropout, and `self.attn` (initialised to
`None` in `__init__`); `forward` computes per-head attention and assigns
`x, self.attn = attention(...)`.  We model the module state as a structure
whose `d_model` is `heads * dk` (guaranteed by the construction-time assert)
and `forward` as a state transformer returning the output together with the
post-call module state. -/

/-- `nn.Linear(i, o)`: weight and bias. -/
structure LinearM (i o : ℕ) where
  weight : Mat o i
  bias : Fin o → ℝ

/-- Apply a linear layer position-wise to a 3-D tensor. -/
noncomputable def LinearM.apply {b t i o : ℕ} (L : LinearM i o) (x : T3 b t i) : T3 b t o :=
  fun ib tt j => (∑ l, L.weight j l * x ib tt l) + L.bias j

/-- `l(x).view(nbatches, -1, h, d_k).transpose(1, 2)`, read off at one
(batch, head) pair: the per-head query/key/value matrix. -/
noncomputable def headView {b t : ℕ} (h dk : ℕ) (x : T3 b t (h * dk))
    (ib : Fin b) (hd : Fin h) : Mat t dk :=
  fun tt kk => x ib tt ⟨hd.val * dk + kk.val, by
    have h1 : hd.val * dk + kk.val < hd.val * dk + dk := Nat.add_lt_add_left kk.isLt _
    have h2 : (hd.val + 1) * dk ≤ h * dk := Nat.mul_le_mul_right dk (Nat.succ_le_of_lt hd.isLt)
    have h3 : hd.val * dk + dk = (hd.val + 1) * dk := by ring
    omega⟩

/-- `x.transpose(1, 2).contiguous().view(nbatches, -1, h * d_k)`: glue the
per-head outputs back into one 3-D tensor. -/
noncomputable def headConcat {b t : ℕ} (h dk : ℕ) (y : Fin b → Fin h → Mat t dk) :
    T3 b t (h * dk) :=
  fun ib tt cc =>
    y ib ⟨cc.val / dk, by
        rcases Nat.eq_zero_or_pos dk with hdk | hdk
        · exact absurd cc.isLt (by simp [hdk])
        · have hcc : cc.val < dk * h := lt_of_lt_of_eq cc.isLt (Nat.mul_comm h dk)
          exact Nat.div_lt_of_lt_mul hcc⟩
      tt
      ⟨cc.val % dk, by
        rcases Nat.eq_zero_or_pos dk with hdk | hdk
        · exact absurd cc.isLt (by simp [hdk])
        · exact Nat.mod_lt _ hdk⟩

/-- The `MultiHeadedAttention` module state: four linears
(`clones(nn.Linear(d_in, d_model), 3)` plus the appended
`nn.Linear(d_model, d_in)`), the dropout sub-module (opaque, any state), and
the `attn` slot holding the last call's attention weights — `None` right
after construction. -/
structure MultiHeadedAttention (h dk din : ℕ) where
  linearQ : LinearM din (h * dk)
  linearK : LinearM din (h * dk)
  linearV : LinearM din (h * dk)
  linearOut : LinearM (h * dk) din
  dropout : (m n : ℕ) → Mat m n → Mat m n
  attn : Option ((b : ℕ) × (tq : ℕ) × (tk : ℕ) × (Fin b → Fin h → Fin tq → Fin tk → ℝ))

/-- The per-call attention weights of shape `(batch, heads, time_q, time_k)`
(the second component of `attention(...)` at each batch/head pair, the mask
broadcast over heads by `mask.unsqueeze(1)`). -/
noncomputable def mhaWeights {h dk din : ℕ} (m : MultiHeadedAttention h dk din)
    {b tq tk : ℕ} (query : T3 b tq din) (key : T3 b tk din) (value : T3 b tk din)
    (mask : Option (Fin b → Fin tq → Fin tk → ℕ)) :
    Fin b → Fin h → Fin tq → Fin tk → ℝ :=
  fun ib hd =>
    (attention dk dk (headView h dk (m.linearQ.apply query) ib hd)
      (headView h dk (m.linearK.apply key) ib hd)
      (headView h dk (m.linearV.apply value) ib hd)
      (mask.map (fun mk => mk ib))
      (some (m.dropout tq tk))).2

/-- `MultiHeadedAttention.forward`: project, split heads, run `attention`
per (batch, head) — assigning `self.attn` — concatenate, output-project.
Returns the output and the post-call module state. -/
noncomputable def MultiHeadedAttention.forward {h dk din : ℕ}
    (m : MultiHeadedAttention h dk din) {b tq tk : ℕ}
    (query : T3 b tq din) (key : T3 b tk din) (value : T3 b tk din)
    (mask : Option (Fin b → Fin tq → Fin tk → ℕ)) :
    T3 b tq din × MultiHeadedAttention h dk din :=
  let res := fun (ib : Fin b) (hd : Fin h) =>
    attention dk dk (headView h dk (m.linearQ.apply query) ib hd)
      (headView h dk (m.linearK.apply key) ib hd)
      (headView h dk (m.linearV.apply value) ib hd)
      (mask.map (fun mk => mk ib))
      (some (m.dropout tq tk))
  let x := headConcat h dk (fun ib hd => (res ib hd).1)
  (m.linearOut.apply x,
   { m with attn := some ⟨b, tq, tk, fun ib hd => (res ib hd).2⟩ })

/-- C8 (amended).  Every multi-head attention call mutates exactly the
module's `attn` field: the post-call state is the pre-call state with `attn`
overwritten by this call's `(batch, heads, time_q, time_k)` weights — so the
weights ARE persisted on the module until the next call, while the learned
parameters and dropout are untouched. -/
theorem c8_forward_overwrites_attn {h dk din : ℕ} (m : MultiHeadedAttention h dk din)
    {b tq tk : ℕ} (query : T3 b tq din) (key : T3 b tk din) (value : T3 b tk din)
    (mask : Option (Fin b → Fin tq → Fin tk → ℕ)) :
    (m.forward query key value mask).2 =
      { m with attn := some ⟨b, tq, tk, mhaWeights m query key value mask⟩ } ∧
    (m.forward query key value mask).2.linearQ = m.linearQ ∧
    (m.forward query key value mask).2.linearK = m.linearK ∧
    (m.forward query key value mask).2.linearV = m.linearV ∧
    (m.forward query key value mask).2.linearOut = m.linearOut ∧
    (m.forward query key value mask).2.dropout = m.dropout :=
  ⟨rfl, rfl, rfl, rfl, rfl, rfl⟩

/-- A freshly constructed concrete module (`h = dk = din = 1`, zero weights,
identity dropout, `attn = None`). -/
noncomputable def mha0 : MultiHeadedAttention 1 1 1 where
  linearQ := ⟨fun _ _ => 0, fun _ => 0⟩
  linearK := ⟨fun _ _ => 0, fun _ => 0⟩
  linearV := ⟨fun _ _ => 0, fun _ => 0⟩
  linearOut := ⟨fun _ _ => 0, fun _ => 0⟩
  dropout := fun _ _ p => p
  attn := none

/-- C8 counterexample: a concrete call does NOT leave the module state
unchanged — the attention weights are persisted into `self.attn`. -/
theorem c8_state_change_counterexample :
    (mha0.forward (zT3 1 1 1) (zT3 1 1 1) (zT3 1 1 1) none).2 ≠ mha0 := by
  intro h
  have hattn := congrArg MultiHeadedAttention.attn h
  simp only [MultiHeadedAttention.forward, mha0] at hattn
  exact Option.some_ne_none _ hattn

/-! ## PositionalEncoding (model.py lines 259-282): claim C9

`forward` tries `x = x + self.pe[:, :x.size(1)]` and, if that raises, retries
after `x = x.unsqueeze(0)`.  Whether the add raises is decided by PyTorch
broadcasting, so we model rank-generic tensors: a shape together with a total
indexing function (entries outside the shape are irrelevant; theorems only
ever read in-range indices), and the broadcasting rules of `torch.add`:
shapes are right-aligned, each dimension pair must be equal or contain a 1,
and size-1 dimensions are indexed at 0. -/

/-- A rank-generic tensor: shape plus indexing function. -/
structure PTen where
  shape : List ℕ
  data : List ℕ → ℝ

/-- Broadcast two reversed (least-significant-first) shapes. -/
def bcastRev : List ℕ → List ℕ → Option (List ℕ)
  | [], ys => some ys
  | xs, [] => some xs
  | x :: xs, y :: ys =>
      (bcastRev xs ys).bind (fun r =>
        if x = y ∨ x = 1 ∨ y = 1 then some (max x y :: r) else none)

/-- Broadcast two shapes (PyTorch right-aligned rules); `none` = RuntimeError. -/
def bcastShapes (a b : List ℕ) : Option (List ℕ) :=
  (bcastRev a.reverse b.reverse).map List.reverse

/-- Pull a result index back through a (reversed) source shape: extra leading
dimensions are dropped, size-1 dimensions are indexed at 0. -/
def pullRev : List ℕ → List ℕ → List ℕ
  | [], _ => []
  | _ :: srcRest, [] => 0 :: pullRev srcRest []
  | s :: srcRest, i :: idxRest => (if s = 1 then 0 else i) :: pullRev srcRest idxRest

/-- Pull a result index back onto a source tensor's shape. -/
def pullIdx (src idx : List ℕ) : List ℕ :=
  (pullRev src.reverse idx.reverse).reverse

/-- Broadcasting addition, `none` modelling the RuntimeError the `except`
branch catches. -/
noncomputable def PTen.add (x y : PTen) : Option PTen :=
  (bcastShapes x.shape y.shape).map (fun s =>
    ⟨s, fun idx => x.data (pullIdx x.shape idx) + y.data (pullIdx y.shape idx)⟩)

/-- Wrap a 2-D array of reals as a tensor. -/
noncomputable def PTen.mk2 (T C : ℕ) (f : Fin T → Fin C → ℝ) : PTen :=
  ⟨[T, C], fun idx =>
    match idx with
    | [t, c] =>
        if ht : t < T then if hc : c < C then f ⟨t, ht⟩ ⟨c, hc⟩ else 0 else 0
    | _ => 0⟩

/-- Wrap a 3-D array of reals as a tensor. -/
noncomputable def PTen.mk3 (B T C : ℕ) (f : Fin B → Fin T → Fin C → ℝ) : PTen :=
  ⟨[B, T, C], fun idx =>
    match idx with
    | [b, t, c] =>
        if hb : b < B then if ht : t < T then if hc : c < C then
          f ⟨b, hb⟩ ⟨t, ht⟩ ⟨c, hc⟩ else 0 else 0 else 0
    | _ => 0⟩

/-- `div_term[i] = exp(2i * (-log 10000 / d_model))`. -/
noncomputable def divTerm (d i : ℕ) : ℝ :=
  Real.exp (-(2 * (i : ℝ)) * Real.log 10000 / (d : ℝ))

/-- The precomputed sinusoid table: `pe[pos, 2i] = sin(pos * div_term[i])`,
`pe[pos, 2i+1] = cos(pos * div_term[i])`. -/
noncomputable def peVal (d pos c : ℕ) : ℝ :=
  if c % 2 = 0 then Real.sin ((pos : ℝ) * divTerm d (c / 2))
  else Real.cos ((pos : ℝ) * divTerm d (c / 2))

/-- The registered buffer `self.pe` after `unsqueeze(0)`: shape
`(1, max_len, d_model)`. -/
noncomputable def peTen (maxLen d : ℕ) : PTen :=
  ⟨[1, maxLen, d], fun idx =>
    match idx with
    | [_, t, c] => peVal d t c
    | _ => 0⟩

/-- `self.pe[:, :k]`: shape `(1, min(max_len, k), d_model)`. -/
noncomputable def peSlice (maxLen d k : ℕ) : PTen :=
  ⟨[1, min maxLen k, d], (peTen maxLen d).data⟩

/-- The body of the `try` block: `x + self.pe[:, :x.size(1)]`; `x.size(1)`
itself raises (IndexError) on tensors of rank < 2. -/
noncomputable def peFirstTry (maxLen d : ℕ) (x : PTen) : Option PTen :=
  match x.shape.get? 1 with
  | none => none
  | some s1 => PTen.add x (peSlice maxLen d s1)

/-- `x.unsqueeze(0)`. -/
noncomputable def peUnsqueeze0 (x : PTen) : PTen :=
  ⟨1 :: x.shape, fun idx => x.data idx.tail⟩

/-- `PositionalEncoding.forward`: try the add; on failure retry with a
leading singleton dimension; finish with the dropout sub-module (opaque). -/
noncomputable def PositionalEncoding.forward (maxLen d : ℕ) (drop : PTen → PTen)
    (x : PTen) : Option PTen :=
  match peFirstTry maxLen d x with
  | some y => some (drop y)
  | none => (peFirstTry maxLen d (peUnsqueeze0 x)).map drop

/-- Compute a broadcasting add once the shapes broadcast. -/
theorem PTen.add_eq (x y : PTen) (s : List ℕ) (h : bcastShapes x.shape y.shape = some s) :
    PTen.add x y =
      some ⟨s, fun idx => x.data (pullIdx x.shape idx) + y.data (pullIdx y.shape idx)⟩ := by
  simp [PTen.add, h]

/-- C9 (amended).  For an un-batched 2-D input of shape `(T, d_model)` with
`T ∉ {1, d_model}` (and `d_model ≠ 1`, both lengths within the table), the
initial positional-table add fails and the fallback inserts a singleton batch
dimension and returns the correctly position-encoded single-batch result; for
batched 3-D input of valid length the first add succeeds and no fallback
occurs.  (When `T = 1` or `T = d_model` the initial add broadcasts instead of
failing — see the counterexample.) -/
theorem c9_pe_fallback_on_unbatched_input (maxLen d T : ℕ) (f : Fin T → Fin d → ℝ)
    (hdm : d ≤ maxLen) (hTm : T ≤ maxLen) (hT1 : T ≠ 1) (hTd : T ≠ d) (hd1 : d ≠ 1) :
    peFirstTry maxLen d (PTen.mk2 T d f) = none ∧
    (∃ y, PositionalEncoding.forward maxLen d (fun z => z) (PTen.mk2 T d f) = some y ∧
      y.shape = [1, T, d] ∧
      ∀ (t : Fin T) (c : Fin d), y.data [0, t.val, c.val] = f t c + peVal d t.val c.val) ∧
    (∀ (B : ℕ) (g : Fin B → Fin T → Fin d → ℝ),
      PositionalEncoding.forward maxLen d (fun z => z) (PTen.mk3 B T d g) =
        peFirstTry maxLen d (PTen.mk3 B T d g) ∧
      (peFirstTry maxLen d (PTen.mk3 B T d g)).isSome = true) := by
  have hmind : min maxLen d = d := Nat.min_eq_right hdm
  have hminT : min maxLen T = T := Nat.min_eq_right hTm
  have hfirst : peFirstTry maxLen d (PTen.mk2 T d f) = none := by
    simp only [peFirstTry, PTen.mk2, PTen.add, peSlice, bcastShapes]
    simp [List.get?, bcastRev, hmind, hTd, hT1, hd1]
  have hbc : bcastShapes [1, T, d] [1, T, d] = some [1, T, d] := by
    simp [bcastShapes, bcastRev]
  have hsl : (peSlice maxLen d T).shape = [1, T, d] := by
    simp [peSlice, peTen, hminT]
  have hadd : PTen.add (peUnsqueeze0 (PTen.mk2 T d f)) (peSlice maxLen d T) =
      some ⟨[1, T, d], fun idx =>
        (peUnsqueeze0 (PTen.mk2 T d f)).data (pullIdx [1, T, d] idx) +
        (peSlice maxLen d T).data (pullIdx [1, T, d] idx)⟩ := by
    have h1 : (peUnsqueeze0 (PTen.mk2 T d f)).shape = [1, T, d] := rfl
    have := PTen.add_eq (peUnsqueeze0 (PTen.mk2 T d f)) (peSlice maxLen d T) [1, T, d]
      (by rw [h1, hsl]; exact hbc)
    rw [this, h1, hsl]
  have hsecond : peFirstTry maxLen d (peUnsqueeze0 (PTen.mk2 T d f)) =
      PTen.add (peUnsqueeze0 (PTen.mk2 T d f)) (peSlice maxLen d T) := by
    simp [peFirstTry, peUnsqueeze0, PTen.mk2, List.get?]
  refine ⟨hfirst, ?_, ?_⟩
  · refine ⟨⟨[1, T, d], fun idx =>
      (peUnsqueeze0 (PTen.mk2 T d f)).data (pullIdx [1, T, d] idx) +
      (peSlice maxLen d T).data (pullIdx [1, T, d] idx)⟩, ?_, rfl, ?_⟩
    · simp only [PositionalEncoding.forward, hfirst]
      rw [hsecond, hadd]
      rfl
    · intro t c
      have hpull : pullIdx [1, T, d] [0, t.val, c.val] = [0, t.val, c.val] := by
        simp [pullIdx, pullRev, hT1, hd1]
      simp only [hpull]
      have hx : (peUnsqueeze0 (PTen.mk2 T d f)).data [0, t.val, c.val] = f t c := by
        simp [peUnsqueeze0, PTen.mk2, t.isLt, c.isLt]
      have hpe : (peSlice maxLen d T).data [0, t.val, c.val] = peVal d t.val c.val := by
        simp [peSlice, peTen]
      rw [hx, hpe]
  · intro B g
    have hget : (PTen.mk3 B T d g).shape.get? 1 = some T := by
      simp [PTen.mk3, List.get?]
    have hbc3 : (bcastShapes (PTen.mk3 B T d g).shape (peSlice maxLen d T).shape).isSome
        = true := by
      rw [hsl]
      simp [PTen.mk3, bcastShapes, bcastRev]
    have hsome : (peFirstTry maxLen d (PTen.mk3 B T d g)).isSome = true := by
      simp only [peFirstTry, hget]
      simp [PTen.add, Option.isSome_map]
      exact hbc3
    obtain ⟨y, hy⟩ := Option.isSome_iff_exists.mp hsome
    constructor
    · simp only [PositionalEncoding.forward, hy]
    · exact hsome

/-- C9 counterexample: a well-formed un-batched 2-D input of shape
`(1, d_model)` on which the initial add does NOT fail — broadcasting accepts
it and produces a `(1, d_model, d_model)`-shaped result (here `(1, 2, 2)`),
not the claimed single-batch encoding of shape `(1, 1, 2)`, and the fallback
never runs. -/
theorem c9_unbatched_counterexample :
    (peFirstTry 5000 2 (PTen.mk2 1 2 (fun _ _ => 0))).isSome = true ∧
    Option.map PTen.shape
      (PositionalEncoding.forward 5000 2 (fun z => z) (PTen.mk2 1 2 (fun _ _ => 0))) =
      some [1, 2, 2] ∧
    ([1, 2, 2] : List ℕ) ≠ [1, 1, 2] := by
  refine ⟨rfl, ?_, by decide⟩
  have h1 : peFirstTry 5000 2 (PTen.mk2 1 2 (fun _ _ => 0)) =
      PTen.add (PTen.mk2 1 2 (fun _ _ => 0)) (peSlice 5000 2 2) := rfl
  have hbc : bcastShapes (PTen.mk2 1 2 (fun _ _ => 0)).shape (peSlice 5000 2 2).shape =
      some [1, 2, 2] := by
    simp [PTen.mk2, peSlice, peTen, bcastShapes, bcastRev]
  have h2 := PTen.add_eq (PTen.mk2 1 2 (fun _ _ => 0)) (peSlice 5000 2 2) [1, 2, 2] hbc
  simp only [PositionalEncoding.forward, h1, h2]
  rfl

/-- Witness for C9 at a concrete input: a `(3, 2)` un-batched zero tensor,
table length 10. -/
theorem c9_pe_fallback_on_unbatched_input_witness :
    ((2 ≤ 10) ∧ (3 ≤ 10) ∧ (3 ≠ 1) ∧ (3 ≠ 2) ∧ (2 ≠ 1)) ∧
    (peFirstTry 10 2 (PTen.mk2 3 2 (fun _ _ => 0)) = none ∧
    (∃ y, PositionalEncoding.forward 10 2 (fun z => z) (PTen.mk2 3 2 (fun _ _ => 0)) =
        some y ∧
      y.shape = [1, 3, 2] ∧
      ∀ (t : Fin 3) (c : Fin 2), y.data [0, t.val, c.val] =
        (fun (_ : Fin 3) (_ : Fin 2) => (0 : ℝ)) t c + peVal 2 t.val c.val) ∧
    (∀ (B : ℕ) (g : Fin B → Fin 3 → Fin 2 → ℝ),
      PositionalEncoding.forward 10 2 (fun z => z) (PTen.mk3 B 3 2 g) =
        peFirstTry 10 2 (PTen.mk3 B 3 2 g) ∧
      (peFirstTry 10 2 (PTen.mk3 B 3 2 g)).isSome = true)) :=
  ⟨⟨by decide, by decide, by decide, by decide, by decide⟩,
   c9_pe_fallback_on_unbatched_input 10 2 3 (fun _ _ => 0)
     (by decide) (by decide) (by decide) (by decide) (by decide)⟩

/-! ## make_model parameter initialisation (model.py lines 285-330): claim C5

`make_model` runs `for p in model.parameters(): if p.dim() > 1:
nn.init.xavier_uniform(p)`.  What that loop reaches is decided by `nn.Module`
registration: module-valued attributes (and `ModuleList`/`Sequential`
entries) are registered recursively, but with `share_classifier=False` the
per-language classifiers are stored in a plain Python dict
(`classifier = {'en': ..., 'ko': ...}`), which `nn.Module` does NOT register
— those two `nn.Linear(d_model, 401, bias=False)` modules never appear in
`model.parameters()`.  We model the parameter tree as the flat list of
parameters each constructed sub-module contributes, with its dimensionality
and the default initialisation its constructor gave it. -/

/-- Default initialisation of a parameter before the Xavier loop: this file's
`LayerNorm` explicitly builds `a_2` from ones and `b_2` from zeros;
`nn.Linear` weights default to Kaiming-uniform and `nn.Linear` biases to a
nonzero uniform distribution (NOT zeros); `nn.Embedding` weights default to
standard normal. -/
inductive DefaultInit where
  | ones
  | zeros
  | linearWeightDefault
  | linearBiasDefault
  | embeddingDefault
deriving DecidableEq

/-- One learnable parameter: qualified path, number of dimensions, default
initialisation. -/
structure ParamInfo where
  path : List String
  ndims : ℕ
  dflt : DefaultInit
deriving DecidableEq

/-- Qualify a list of parameters by an attribute name. -/
def prefixed (pre : String) (ps : List ParamInfo) : List ParamInfo :=
  ps.map (fun p => ⟨pre :: p.path, p.ndims, p.dflt⟩)

/-- `nn.Linear(i, o, bias=...)`: 2-D weight plus optional 1-D bias. -/
def linearParams (bias : Bool) : List ParamInfo :=
  ⟨["weight"], 2, DefaultInit.linearWeightDefault⟩ ::
    (if bias then [⟨["bias"], 1, DefaultInit.linearBiasDefault⟩] else [])

/-- `LayerNorm(features)`: `a_2 = ones`, `b_2 = zeros`, both 1-D. -/
def layerNormParams : List ParamInfo :=
  [⟨["a_2"], 1, DefaultInit.ones⟩, ⟨["b_2"], 1, DefaultInit.zeros⟩]

/-- `Embeddings(d_model, vocab)`: one 2-D `nn.Embedding` weight. -/
def embeddingParams : List ParamInfo :=
  prefixed "lut" [⟨["weight"], 2, DefaultInit.embeddingDefault⟩]

/-- `MultiHeadedAttention`: `clones(nn.Linear(d_in, d_model), 3)` plus the
appended `nn.Linear(d_model, d_in)`, all with biases. -/
def mhaParams : List ParamInfo :=
  prefixed "linears"
    (prefixed "0" (linearParams true) ++ prefixed "1" (linearParams true) ++
     prefixed "2" (linearParams true) ++ prefixed "3" (linearParams true))

/-- `PositionwiseFeedForward`: `w_1`, `w_2`. -/
def ffParams : List ParamInfo :=
  prefixed "w_1" (linearParams true) ++ prefixed "w_2" (linearParams true)

/-- `SublayerConnection`: its `LayerNorm` (dropout has no parameters). -/
def sublayerParams : List ParamInfo :=
  prefixed "norm" layerNormParams

/-- `EncoderLayer`: `self_attn`, `vid_attn`, `ff1`, five sublayer clones,
`seq_attn`, `ff2`, and — only when shared — the registered classifier
`nn.Linear(d_model, 401, bias=False)`.  When per-language, the classifier is
a plain dict attribute and contributes nothing here. -/
def encoderLayerRegisteredParams (share : Bool) : List ParamInfo :=
  prefixed "self_attn" mhaParams ++ prefixed "vid_attn" mhaParams ++
  prefixed "ff1" ffParams ++
  prefixed "sublayer"
    (prefixed "0" sublayerParams ++ prefixed "1" sublayerParams ++
     prefixed "2" sublayerParams ++ prefixed "3" sublayerParams ++
     prefixed "4" sublayerParams) ++
  prefixed "seq_attn" mhaParams ++ prefixed "ff2" ffParams ++
  (if share then prefixed "classifier" (linearParams false) else [])

/-- `Encoder`: `N` deep-copied layers plus the closing norm. -/
def encoderParams (share : Bool) (N : ℕ) : List ParamInfo :=
  prefixed "layers" ((List.range N).flatMap (fun _ => encoderLayerRegisteredParams share)) ++
  prefixed "norm" layerNormParams

/-- `DecoderLayer`: `self_attn`, `src_attn`, `feed_forward`, three sublayer
clones. -/
def decoderLayerParams : List ParamInfo :=
  prefixed "self_attn" mhaParams ++ prefixed "src_attn" mhaParams ++
  prefixed "feed_forward" ffParams ++
  prefixed "sublayer"
    (prefixed "0" sublayerParams ++ prefixed "1" sublayerParams ++
     prefixed "2" sublayerParams)

/-- `Decoder`: `N` layers plus the closing norm. -/
def decoderParams (N : ℕ) : List ParamInfo :=
  prefixed "layers" ((List.range N).flatMap (fun _ => decoderLayerParams)) ++
  prefixed "norm" layerNormParams

/-- `nn.Sequential(Embeddings, PositionalEncoding)`: the positional encoding
holds only the non-learnable `pe` buffer. -/
def embedSeqParams : List ParamInfo :=
  prefixed "0" embeddingParams

/-- `nn.Sequential(nn.Linear(1024, d_model), nn.ReLU(), PositionalEncoding)`. -/
def vidEncoderParams : List ParamInfo :=
  prefixed "0" (linearParams true)

/-- `Generator`: one projection linear. -/
def generatorParams : List ParamInfo :=
  prefixed "proj" (linearParams true)

/-- Everything `model.parameters()` yields for the `EncoderDecoder` built by
`make_model`. -/
def modelRegisteredParams (N : ℕ) (share : Bool) : List ParamInfo :=
  prefixed "en_embed" embedSeqParams ++ prefixed "ko_embed" embedSeqParams ++
  prefixed "encoder" (encoderParams share N) ++
  prefixed "vid_encoder" vidEncoderParams ++
  prefixed "decoder" (decoderParams N) ++
  prefixed "en_generator" generatorParams ++ prefixed "ko_generator" generatorParams

/-- The two per-language classifiers built (and moved to the GPU) by
`make_model` when `share_classifier=False` — learnable parameters of the
system that live only in the plain dict. -/
def classifierDictParams : List ParamInfo :=
  prefixed "classifier"
    (prefixed "en" (linearParams false) ++ prefixed "ko" (linearParams false))

/-- A parameter's initialisation after `make_model` returns. -/
inductive InitState where
  | xavier
  | dflt (d : DefaultInit)
deriving DecidableEq

/-- The initialisation state of every learnable parameter of the system after
`make_model`: registered parameters with more than one dimension get
`xavier_uniform`, all others keep their defaults; with `share_classifier=False`
the dict-held classifiers are not visited by the loop at all. -/
def paramStates (N : ℕ) (share : Bool) : List (ParamInfo × InitState) :=
  (modelRegisteredParams N share).map
    (fun p => (p, if p.ndims > 1 then InitState.xavier else InitState.dflt p.dflt)) ++
  (if share then [] else classifierDictParams.map (fun p => (p, InitState.dflt p.dflt)))

/-- Members of a prefixed parameter list start with that prefix. -/
theorem mem_prefixed_head {s : String} {ps : List ParamInfo} {p : ParamInfo}
    (hp : p ∈ prefixed s ps) : p.path.head? = some s := by
  simp only [prefixed, List.mem_map] at hp
  obtain ⟨q, _, rfl⟩ := hp
  rfl

/-- Registered model parameters never sit under the `classifier` dict key. -/
theorem registered_not_classifier (N : ℕ) (share : Bool) :
    ∀ p ∈ modelRegisteredParams N share, p.path.head? ≠ some "classifier" := by
  intro p hp
  simp only [modelRegisteredParams, List.mem_append] at hp
  rcases hp with ((((((h | h) | h) | h) | h) | h) | h) <;>
    rw [mem_prefixed_head h] <;> decide

/-- C5 (amended).  After `make_model`: every registered parameter with more
than one dimension is Xavier-uniform initialised, and a parameter is
Xavier-initialised only if it is registered and multi-dimensional; every
parameter with at most one dimension keeps its constructor default (ones for
the norm scale `a_2`, zeros for the norm shift `b_2`, PyTorch's nonzero
uniform default for linear biases); and with `share_classifier=False` the two
per-language classifiers are NOT registered model parameters — they keep
their default (non-Xavier) initialisation even though their weights are 2-D. -/
theorem c5_xavier_only_registered_params (N : ℕ) (share : Bool) :
    (∀ p ∈ modelRegisteredParams N share, p.ndims > 1 →
      (p, InitState.xavier) ∈ paramStates N share) ∧
    (∀ pi ∈ paramStates N share, pi.2 = InitState.xavier →
      pi.1 ∈ modelRegisteredParams N share ∧ pi.1.ndims > 1) ∧
    (∀ pi ∈ paramStates N share, pi.1.ndims ≤ 1 → pi.2 = InitState.dflt pi.1.dflt) ∧
    (share = false → ∀ p ∈ classifierDictParams,
      p ∉ modelRegisteredParams N share ∧
      (p, InitState.dflt p.dflt) ∈ paramStates N share) := by
  refine ⟨?_, ?_, ?_, ?_⟩
  · intro p hp hdim
    apply List.mem_append_left
    refine List.mem_map.mpr ⟨p, hp, ?_⟩
    simp [hdim]
  · intro pi hpi hx
    simp only [paramStates, List.mem_append] at hpi
    rcases hpi with h | h
    · obtain ⟨p, hp, rfl⟩ := List.mem_map.mp h
      by_cases hdim : p.ndims > 1
      · exact ⟨hp, hdim⟩
      · simp [hdim] at hx
    · rcases share with _ | _
      · obtain ⟨p, _, rfl⟩ := List.mem_map.mp (by simpa using h)
        simp at hx
      · simp at h
  · intro pi hpi hdim
    simp only [paramStates, List.mem_append] at hpi
    rcases hpi with h | h
    · obtain ⟨p, hp, rfl⟩ := List.mem_map.mp h
      simp [Nat.not_lt.mpr hdim]
    · rcases share with _ | _
      · obtain ⟨p, _, rfl⟩ := List.mem_map.mp (by simpa using h)
        rfl
      · simp at h
  · rintro rfl p hp
    have hhead : p.path.head? = some "classifier" := by
      simp only [classifierDictParams] at hp
      exact mem_prefixed_head hp
    refine ⟨fun hmem => registered_not_classifier N false p hmem hhead, ?_⟩
    have hmm : (p, InitState.dflt p.dflt) ∈
        classifierDictParams.map (fun q => (q, InitState.dflt q.dflt)) :=
      List.mem_map.mpr ⟨p, hp, rfl⟩
    simp only [paramStates]
    apply List.mem_append_right
    simpa using hmm

/-- The `'en'` classifier weight with `share_classifier=False`. -/
def enClassifierWeight : ParamInfo :=
  ⟨["classifier", "en", "weight"], 2, DefaultInit.linearWeightDefault⟩

/-- C5 counterexample (at `N = 1`, `share_classifier=False`): the `'en'`
classifier weight is a 2-D learnable parameter of the built system that is
NOT Xavier-uniform initialised — it keeps the `nn.Linear` default because the
plain dict holding it is not registered; moreover the 1-D `nn.Linear` biases'
default initialisation is not zeros, contrary to the claim's reading of the
defaults. -/
theorem c5_unregistered_classifier_counterexample :
    enClassifierWeight.ndims = 2 ∧
    (enClassifierWeight, InitState.dflt DefaultInit.linearWeightDefault) ∈
      paramStates 1 false ∧
    (enClassifierWeight, InitState.xavier) ∉ paramStates 1 false ∧
    enClassifierWeight ∉ modelRegisteredParams 1 false ∧
    (⟨["en_generator", "proj", "bias"], 1, DefaultInit.linearBiasDefault⟩ : ParamInfo) ∈
      modelRegisteredParams 1 false ∧
    DefaultInit.linearBiasDefault ≠ DefaultInit.zeros := by
  refine ⟨rfl, ?_, ?_, ?_, ?_, by decide⟩
  · decide
  · decide
  · decide
  · decide

/-- Witness for C5 at `N = 1`, `share_classifier=False`, applied to the
`'en'` classifier weight. -/
theorem c5_xavier_only_registered_params_witness :
    enClassifierWeight ∈ classifierDictParams ∧
    (enClassifierWeight ∉ modelRegisteredParams 1 false ∧
     (enClassifierWeight, InitState.dflt enClassifierWeight.dflt) ∈ paramStates 1 false) :=
  ⟨by decide,
   (c5_xavier_only_registered_params 1 false).2.2.2 rfl enClassifierWeight (by decide)⟩

/-! ## Shape semantics of the full forward pass (claim C3)

Executable shape-level translation of every module on the
`EncoderDecoder.forward` path.  A tensor is abstracted to its shape
(`List ℕ`); every operation returns `Option Shape`, `none` being the
runtime's shape-mismatch error.  Broadcasting reuses `bcastShapes`. -/

abbrev Shape := List ℕ

/-- `nn.Linear(inF, outF)`: requires the last dimension to be `inF`. -/
def linearShape (inF outF : ℕ) (s : Shape) : Option Shape :=
  match s.getLast? with
  | none => none
  | some l => if l = inF then some (s.dropLast ++ [outF]) else none

/-- `torch.matmul` on tensors of rank at least 2: contract the inner pair,
broadcast the batch dimensions. -/
def matmulShape (a b : Shape) : Option Shape :=
  match a.reverse, b.reverse with
  | am :: an :: abatch, bp :: bm :: bbatch =>
      if am = bm then
        (bcastRev abatch bbatch).map (fun r => r.reverse ++ [an, bp])
      else none
  | _, _ => none

/-- `x.transpose(-2, -1)`. -/
def transposeLast2 (s : Shape) : Option Shape :=
  match s.reverse with
  | a :: b :: rest => some ((b :: a :: rest).reverse)
  | _ => none

/-- `x.transpose(1, 2)` on rank ≥ 3. -/
def transpose12 (s : Shape) : Option Shape :=
  match s with
  | a :: b :: c :: rest => some (a :: c :: b :: rest)
  | _ => none

/-- `mask.unsqueeze(1)`. -/
def unsqueeze1 (s : Shape) : Option Shape :=
  match s with
  | b :: rest => some (b :: 1 :: rest)
  | [] => none

/-- `scores.masked_fill(mask == 0, -1e9)`: the mask must broadcast to the
scores without enlarging them. -/
def maskedFillShape (s mask : Shape) : Option Shape :=
  match bcastShapes s mask with
  | some r => if r = s then some s else none
  | none => none

/-- The `attention` function at shape level (softmax and dropout preserve
shapes). -/
def attentionShape (q k v : Shape) (mask : Option Shape) : Option Shape := do
  let kt ← transposeLast2 k
  let scores ← matmulShape q kt
  let scores ← match mask with
    | none => pure scores
    | some mk => maskedFillShape scores mk
  matmulShape scores v

/-- `x.view(nbatches, -1, h, dk)`: total element count must split. -/
def viewInferShape (s : Shape) (nb h dk : ℕ) : Option Shape :=
  let total := s.prod
  let dmz := nb * h * dk
  if dmz ≠ 0 ∧ total % dmz = 0 then some [nb, total / dmz, h, dk] else none

/-- `x.view(nbatches, -1, h * dk)`. -/
def viewMergeShape (s : Shape) (nb hdk : ℕ) : Option Shape :=
  let total := s.prod
  if nb * hdk ≠ 0 ∧ total % (nb * hdk) = 0 then some [nb, total / (nb * hdk), hdk]
  else none

/-- `MultiHeadedAttention.forward` at shape level (as wired by `make_model`:
`d_in = d_model`, so all four linears are `d_model → d_model`).  The query
must be rank 3 (`nbatches, qT, qC = query.size()`); the mask is broadcast
over heads by `unsqueeze(1)`. -/
def mhaShape (h d_model : ℕ) (q k v : Shape) (mask : Option Shape) : Option Shape :=
  let dk := d_model / h
  let maskU : Option (Option Shape) :=
    match mask with
    | none => some none
    | some mk => (unsqueeze1 mk).map some
  match maskU, q with
  | some mask', [nb, _, _] => do
      let lq ← linearShape d_model d_model q
      let lk ← linearShape d_model d_model k
      let lv ← linearShape d_model d_model v
      let qh ← viewInferShape lq nb h dk
      let qh ← transpose12 qh
      let kh ← viewInferShape lk nb h dk
      let kh ← transpose12 kh
      let vh ← viewInferShape lv nb h dk
      let vh ← transpose12 vh
      let x ← attentionShape qh kh vh mask'
      let xt ← transpose12 x
      let xm ← viewMergeShape xt nb (h * dk)
      linearShape d_model d_model xm
  | _, _ => none

/-- `LayerNorm` at shape level: the elementwise affine parameters of size
`features` must broadcast against the input. -/
def layerNormShape (features : ℕ) (s : Shape) : Option Shape :=
  bcastShapes s [features]

/-- `SublayerConnection.forward` at shape level: norm, sub-layer, dropout,
residual add. -/
def sublayerShape (features : ℕ) (x : Shape) (f : Shape → Option Shape) : Option Shape := do
  let n ← layerNormShape features x
  let y ← f n
  bcastShapes x y

/-- `PositionwiseFeedForward` (`d_out` defaulted to `d_model`). -/
def ffShape (d_model d_ff : ℕ) (s : Shape) : Option Shape := do
  let a ← linearShape d_model d_ff s
  linearShape d_ff d_model a

/-- `EncoderLayer.forward` at shape level; returns (text output shape,
action-prediction shape).  `log_softmax` preserves shapes in both classifier
branches. -/
def encoderLayerShape (h d_model d_ff : ℕ) (seq seq_mask video video_mask : Shape) :
    Option (Shape × Shape) := do
  let seq ← sublayerShape d_model seq (fun s => mhaShape h d_model s s s (some seq_mask))
  let vid_seq ← sublayerShape d_model seq
    (fun s => mhaShape h d_model s video video (some video_mask))
  let seq_vid ← sublayerShape d_model video
    (fun v => mhaShape h d_model v seq seq (some seq_mask))
  let seq_vid ← sublayerShape d_model seq_vid (fun s => ffShape d_model d_ff s)
  let act ← linearShape d_model 401 seq_vid
  let out ← sublayerShape d_model vid_seq (fun s => ffShape d_model d_ff s)
  pure (out, act)

/-- The encoder's layer loop at shape level; `N = 0` fails (claim C10). -/
def encoderLayersShape (h d_model d_ff : ℕ) (mask video video_mask : Shape) :
    ℕ → Shape → Option (Shape × Shape)
  | 0, _ => none
  | 1, x => encoderLayerShape h d_model d_ff x mask video video_mask
  | n + 2, x =>
      (encoderLayerShape h d_model d_ff x mask video video_mask).bind
        (fun r => encoderLayersShape h d_model d_ff mask video video_mask (n + 1) r.1)

/-- `Encoder.forward` at shape level: layers then closing norm. -/
def encoderShape (h d_model d_ff N : ℕ) (x mask video video_mask : Shape) :
    Option (Shape × Shape) := do
  let r ← encoderLayersShape h d_model d_ff mask video video_mask N x
  let nx ← layerNormShape d_model r.1
  pure (nx, r.2)

/-- `DecoderLayer.forward` at shape level. -/
def decoderLayerShape (h d_model d_ff : ℕ) (x memory q_mask tgt_mask : Shape) :
    Option Shape := do
  let x ← sublayerShape d_model x (fun s => mhaShape h d_model s s s (some tgt_mask))
  let x ← sublayerShape d_model x (fun s => mhaShape h d_model s memory memory (some q_mask))
  sublayerShape d_model x (fun s => ffShape d_model d_ff s)

/-- The decoder's layer loop at shape level. -/
def decoderLayersShape (h d_model d_ff : ℕ) (memory q_mask tgt_mask : Shape) :
    ℕ → Shape → Option Shape
  | 0, x => some x
  | n + 1, x =>
      (decoderLayerShape h d_model d_ff x memory q_mask tgt_mask).bind
        (fun r => decoderLayersShape h d_model d_ff memory q_mask tgt_mask n r)

/-- `Decoder.forward` at shape level. -/
def decoderShape (h d_model d_ff N : ℕ) (x memory q_mask tgt_mask : Shape) :
    Option Shape := do
  let r ← decoderLayersShape h d_model d_ff memory q_mask tgt_mask N x
  layerNormShape d_model r

/-- `Embeddings.forward`: lookup appends the feature axis (the `sqrt(d_model)`
scaling preserves shape). -/
def embeddingShape (d_model : ℕ) (s : Shape) : Shape := s ++ [d_model]

/-- `PositionalEncoding.forward` at shape level: same try/except as the
value-level `PositionalEncoding.forward`. -/
def peShapeFirst (maxLen d_model : ℕ) (x : Shape) : Option Shape :=
  match x.get? 1 with
  | none => none
  | some s1 => bcastShapes x [1, min maxLen s1, d_model]

/-- The fallback wrapper of the positional-encoding add. -/
def peShape (maxLen d_model : ℕ) (x : Shape) : Option Shape :=
  match peShapeFirst maxLen d_model x with
  | some y => some y
  | none => peShapeFirst maxLen d_model (1 :: x)

/-- `nn.Sequential(Embeddings(...), PositionalEncoding(...))`. -/
def embedSeqShape (d_model maxLen : ℕ) (tokens : Shape) : Option Shape :=
  peShape maxLen d_model (embeddingShape d_model tokens)

/-- `nn.Sequential(nn.Linear(1024, d_model), nn.ReLU(), PositionalEncoding)`. -/
def vidEncoderShape (d_model maxLen : ℕ) (video : Shape) : Option Shape := do
  let a ← linearShape 1024 d_model video
  peShape maxLen d_model a

/-- `EncoderDecoder.encode` at shape level (the direction flag only selects
which embedding table is used; both have the same shape behaviour). -/
def encodeShape (h d_model d_ff N maxLen : ℕ) (tokens mask video video_mask : Shape) :
    Option (Shape × Shape) := do
  let e ← embedSeqShape d_model maxLen tokens
  let ve ← vidEncoderShape d_model maxLen video
  encoderShape h d_model d_ff N e mask ve video_mask

/-- `EncoderDecoder.decode` at shape level. -/
def decodeShape (h d_model d_ff N maxLen : ℕ) (memory q_mask tgt tgt_mask : Shape) :
    Option Shape := do
  let e ← embedSeqShape d_model maxLen tgt
  decoderShape h d_model d_ff N e memory q_mask tgt_mask

/-- `tokens[:, :-1]` on a 2-D token batch. -/
def sliceDropLastTok (s : Shape) : Option Shape :=
  match s with
  | [b, t] => some [b, t - 1]
  | _ => none

/-- `EncoderDecoder.forward` at shape level, in source order: encode/decode
the en→ko direction, then the ko→en direction, with target sequences
right-shifted (`[:, :-1]`). -/
def modelForwardShape (h d_model d_ff N maxLen : ℕ)
    (en ensrc_mask entgt_mask ko kosrc_mask kotgt_mask video video_mask : Shape) :
    Option (Shape × Shape × Shape × Shape) := do
  let r1 ← encodeShape h d_model d_ff N maxLen en ensrc_mask video video_mask
  let kotr ← sliceDropLastTok ko
  let en_decoded ← decodeShape h d_model d_ff N maxLen r1.1 ensrc_mask kotr kotgt_mask
  let r2 ← encodeShape h d_model d_ff N maxLen ko kosrc_mask video video_mask
  let entr ← sliceDropLastTok en
  let ko_decoded ← decodeShape h d_model d_ff N maxLen r2.1 kosrc_mask entr entgt_mask
  pure (en_decoded, ko_decoded, r1.2, r2.2)

/-- Evaluation of the end-to-end scenario's shapes. -/
theorem modelForwardShape_at_scenario :
    modelForwardShape 8 512 2048 2 5000
        [2, 5] [2, 1, 5] [2, 4, 4] [2, 5] [2, 1, 5] [2, 4, 4] [2, 3, 1024] [2, 1, 3] =
      some ([2, 4, 512], [2, 4, 512], [2, 3, 401], [2, 3, 401]) := rfl

/-- C3 (amended).  With vocab sizes 100/120, `d_model = 512`, `N = 2`,
`h = 8`, batch 2, source length 5 for both languages, video length 3:
`make_model` succeeds (the only construction-time check, the attention
head-divisibility assert, passes — vocab sizes do not affect shapes), and
`forward` returns four tensors of shapes `(2, 4, 512)`, `(2, 4, 512)`,
`(2, 3, 401)` and `(2, 3, 401)`: the first two are *decoder hidden states*
over the right-shifted (length-4) target sequences at width `d_model`, NOT
target-vocabulary logits — `forward` never applies the generators. -/
theorem c3_forward_shape_scenario :
    MultiHeadedAttention.init 8 512 (-1) = Except.ok ⟨64, 512, 8, 512⟩ ∧
    modelForwardShape 8 512 2048 2 5000
        [2, 5] [2, 1, 5] [2, 4, 4] [2, 5] [2, 1, 5] [2, 4, 4] [2, 3, 1024] [2, 1, 3] =
      some ([2, 4, 512], [2, 4, 512], [2, 3, 401], [2, 3, 401]) :=
  ⟨rfl, modelForwardShape_at_scenario⟩

/-- C3 counterexample: the claimed output — target-vocabulary logit tensors
of shapes `(2, 5, 120)` and `(2, 5, 100)` — is not what `forward` produces in
this scenario. -/
theorem c3_claimed_logit_shapes_refuted :
    modelForwardShape 8 512 2048 2 5000
        [2, 5] [2, 1, 5] [2, 4, 4] [2, 5] [2, 1, 5] [2, 4, 4] [2, 3, 1024] [2, 1, 3] ≠
      some ([2, 5, 120], [2, 5, 100], [2, 3, 401], [2, 3, 401]) := by
  intro h
  rw [modelForwardShape_at_scenario] at h
  simp at h
